import Mathlib

/-!
Shallow embedding of the plan-analysis and recommendation engine of the
SQL-analysis repository (files: info_about_query.py, rec_query.py), together
with theorems settling the frozen claims about it.

Modelling conventions:
* Python dict-shaped plan nodes (the JSON of EXPLAIN) become the inductive
  type PlanNode whose fields are Option-valued, mirroring dict.get; a field
  read with a default (plan.get(k, d)) is modelled by Option.getD.
* Python floats are modelled by exact rationals; Python ints by ℤ.
* A Python function that can raise is modelled in Except String; the string
  names the exception.
* Recommendation messages are f-strings; they are modelled as tagged values
  carrying exactly the data interpolated into the message.
-/

namespace SQLAnalysis

/-! ### Character-level string utilities

Python string operations used by the source, re-implemented on lists of
characters so that everything reduces by computation. -/

/-- Word character of the regex module: `[a-zA-Z0-9_]`. -/
def isWordChar (c : Char) : Bool := c.isAlpha || c.isDigit || c == '_'

/-- First character of the identifier pattern: `[a-zA-Z_]`. -/
def isIdentStart (c : Char) : Bool := c.isAlpha || c == '_'

/-- ASCII whitespace matched by the regex class `\s`. -/
def isPySpace (c : Char) : Bool :=
  c == ' ' || c == '\t' || c == '\n' || c == '\r' || c == '\x0b' || c == '\x0c'

/-- The needle is a leading segment of the haystack. -/
def leadsWith : List Char → List Char → Bool
  | [], _ => true
  | _ :: _, [] => false
  | a :: as, b :: bs => a == b && leadsWith as bs

/-- The needle occurs contiguously somewhere in the haystack. -/
def containsSubList (needle : List Char) : List Char → Bool
  | [] => leadsWith needle []
  | c :: rest => leadsWith needle (c :: rest) || containsSubList needle rest

/-- Python's substring test `needle in hay`. -/
def containsSub (hay needle : String) : Bool := containsSubList needle.toList hay.toList

/-- Python's `s.endswith(suff)`. -/
def endsWithSuffix (s suff : String) : Bool :=
  leadsWith suff.toList (s.toList.drop (s.toList.length - suff.toList.length))

/-! ### The column-extraction regex of rec_query.extract_columns_from_filter

The source finds all matches of
`\b([a-zA-Z_][a-zA-Z0-9_]*)\s*(=|>|<|>=|<=|LIKE|ILIKE)` and keeps the set of
captured identifiers.  The scanner below is a direct implementation of that
regex: left-to-right scan, non-overlapping matches, a greedy identifier that
backtracks, ordered alternation for the operator (so `=`, `>`, `<` shadow
`>=` and `<=`, leaving `=`, `>`, `<`, `LIKE`, `ILIKE` as the operators that
can actually match). -/

/-- Length of the operator alternative matching at the head of the list,
trying the alternatives in the regex's order. -/
def opMatch : List Char → Option ℕ
  | '=' :: _ => some 1
  | '>' :: _ => some 1
  | '<' :: _ => some 1
  | 'L' :: 'I' :: 'K' :: 'E' :: _ => some 4
  | 'I' :: 'L' :: 'I' :: 'K' :: 'E' :: _ => some 5
  | _ => none

/-- Number of leading regex-whitespace characters. -/
def wsLen (l : List Char) : ℕ := (l.takeWhile isPySpace).length

/-- Greedy, backtracking attempt to match `ident\s*op` at the head of `l`,
trying identifier lengths from the given candidate downwards.  On success
returns the captured identifier and the total number of characters the whole
match consumed. -/
def tryLens (l : List Char) : ℕ → Option (List Char × ℕ)
  | 0 => none
  | n + 1 =>
    let rest := l.drop (n + 1)
    let ws := wsLen rest
    match opMatch (rest.drop ws) with
    | some opLen => some (l.take (n + 1), n + 1 + ws + opLen)
    | none => tryLens l n

/-- Word-boundary test `\b` between the previous character and an identifier
start. -/
def atBoundary : Option Char → Bool
  | none => true
  | some p => !isWordChar p

/-- Left-to-right scan collecting all captured identifiers, in order of
occurrence.  The first argument counts characters still to be skipped because
they belong to the match just emitted; the second is the previously consumed
character (for the word-boundary test). -/
def scanIdents : ℕ → Option Char → List Char → List String
  | _, _, [] => []
  | skip + 1, _, c :: rest => scanIdents skip (some c) rest
  | 0, prev, c :: rest =>
    if atBoundary prev && isIdentStart c then
      match tryLens (c :: rest) ((c :: rest).takeWhile isWordChar).length with
      | some (ident, consumed) => String.mk ident :: scanIdents (consumed - 1) (some c) rest
      | none => scanIdents 0 (some c) rest
    else scanIdents 0 (some c) rest

/-- Deduplication keeping first occurrences; models building a Python set of
the captures and listing it.  (CPython's set iteration order is unspecified
and hash-seed dependent, and the specification declares the result
order-insensitive, so a canonical order is chosen; every theorem below uses
the result only through membership.) -/
def dedupKeepFirst (seen : List String) : List String → List String
  | [] => []
  | s :: rest =>
    if seen.contains s then dedupKeepFirst seen rest
    else s :: dedupKeepFirst (s :: seen) rest

/-- rec_query.extract_columns_from_filter: the unique identifiers that the
regex captures in the predicate text.  The `== ""` test models the falsiness
guard `if not filter_cond` for the string case; callers in `walk` only invoke
it on truthy predicate values. -/
def extract_columns_from_filter (filter_cond : String) : List String :=
  if filter_cond == "" then []
  else dedupKeepFirst [] (scanIdents 0 none filter_cond.toList)

/-! ### Python numeric helpers -/

/-- Round-half-to-even of a rational to an integer, modelling Python's
`round` (the source only rounds exactly representable values, where binary
floating point and rational arithmetic agree on the branch taken). -/
def roundHalfEven (q : ℚ) : ℤ :=
  if q - ⌊q⌋ < 1 / 2 then ⌊q⌋
  else if (1 : ℚ) / 2 < q - ⌊q⌋ then ⌊q⌋ + 1
  else if ⌊q⌋ % 2 = 0 then ⌊q⌋ else ⌊q⌋ + 1

/-- Python's `round(q, n)`. -/
def pyRound (q : ℚ) (n : ℕ) : ℚ := (roundHalfEven (q * 10 ^ n) : ℚ) / 10 ^ n

/-- Python's `int(q)`: truncation towards zero. -/
def pyIntTrunc (q : ℚ) : ℤ := if 0 ≤ q then ⌊q⌋ else ⌈q⌉

theorem roundHalfEven_nonneg {q : ℚ} (h : 0 ≤ q) : 0 ≤ roundHalfEven q := by
  have hf : (0 : ℤ) ≤ ⌊q⌋ := Int.floor_nonneg.mpr h
  unfold roundHalfEven
  split
  · exact hf
  · split
    · omega
    · split <;> omega

theorem pyRound_nonneg {q : ℚ} (n : ℕ) (h : 0 ≤ q) : 0 ≤ pyRound q n := by
  unfold pyRound
  have h1 : (0 : ℚ) ≤ (roundHalfEven (q * 10 ^ n) : ℚ) := by
    exact_mod_cast roundHalfEven_nonneg (by positivity)
  positivity

/-! ### The plan-node data model

A PlanNode mirrors one dictionary of the JSON produced by
`EXPLAIN (FORMAT JSON)`: every field the source reads is Option-valued
(missing key = none); the child list models `plan.get("Plans", [])`. -/

inductive PlanNode : Type where
  | mk : (nodeType : Option String) → (totalCost : Option ℚ) → (planRows : Option ℤ) →
      (planWidth : Option ℤ) → (startupCost : Option ℚ) → (relationName : Option String) →
      (filterCond : Option String) → (joinFilter : Option String) →
      (sortKey : Option (List String)) → (plans : List PlanNode) → PlanNode

def PlanNode.nodeType : PlanNode → Option String
  | .mk nt _ _ _ _ _ _ _ _ _ => nt

def PlanNode.totalCost : PlanNode → Option ℚ
  | .mk _ tc _ _ _ _ _ _ _ _ => tc

def PlanNode.planRows : PlanNode → Option ℤ
  | .mk _ _ pr _ _ _ _ _ _ _ => pr

def PlanNode.planWidth : PlanNode → Option ℤ
  | .mk _ _ _ pw _ _ _ _ _ _ => pw

def PlanNode.plans : PlanNode → List PlanNode
  | .mk _ _ _ _ _ _ _ _ _ ps => ps

/-- Tags of the node-level advisory messages of info_about_query.extract_metrics,
carrying exactly the values interpolated into each message. -/
inductive NodeAdvice : Type where
  | fullScan (rows : ℤ)
  | parallelPlan
  | workMem (node_type : String) (mb : ℚ) (suggestMb : ℤ)
  | nestedLoop
  | partitioning (cost : ℚ)
deriving DecidableEq

/-- The annotated output node of extract_metrics: the dictionary built at the
end of the function, field for field. -/
inductive AnnotatedNode : Type where
  | mk : (node_type : String) → (cost : ℚ) → (cpu_ms : ℚ) → (io_ms : ℚ) → (total_ms : ℚ) →
      (rows : ℤ) → (width : ℤ) → (startup_cost : ℚ) → (memory_estimate_mb : ℚ) →
      (recommendations : List NodeAdvice) → (children : List AnnotatedNode) → AnnotatedNode

def AnnotatedNode.node_type : AnnotatedNode → String
  | .mk nt _ _ _ _ _ _ _ _ _ _ => nt

def AnnotatedNode.cpu_ms : AnnotatedNode → ℚ
  | .mk _ _ c _ _ _ _ _ _ _ _ => c

def AnnotatedNode.io_ms : AnnotatedNode → ℚ
  | .mk _ _ _ io _ _ _ _ _ _ _ => io

def AnnotatedNode.total_ms : AnnotatedNode → ℚ
  | .mk _ _ _ _ t _ _ _ _ _ _ => t

def AnnotatedNode.memory_estimate_mb : AnnotatedNode → ℚ
  | .mk _ _ _ _ _ _ _ _ m _ _ => m

def AnnotatedNode.recommendations : AnnotatedNode → List NodeAdvice
  | .mk _ _ _ _ _ _ _ _ _ recs _ => recs

def AnnotatedNode.children : AnnotatedNode → List AnnotatedNode
  | .mk _ _ _ _ _ _ _ _ _ _ cs => cs

/-! ### The Plan Metrics Extractor (info_about_query.extract_metrics) -/

/-- Default of the seq_page_cost parameter (unused by the body, kept for
fidelity to the signature). -/
def default_seq_page_cost : ℚ := 1

/-- Default of the cpu_tuple_cost parameter (0.01). -/
def default_cpu_tuple_cost : ℚ := 1 / 100

/-- Derived metric `cpu_cost = rows * cpu_tuple_cost`. -/
def cpu_cost_of (rows : ℤ) (cpu_tuple_cost : ℚ) : ℚ := (rows : ℚ) * cpu_tuple_cost

/-- Derived metric `io_cost = max(cost - cpu_cost, 0)`. -/
def io_cost_of (cost cpu_cost : ℚ) : ℚ := max (cost - cpu_cost) 0

/-- Derived metric `memory_bytes = rows * width`. -/
def memory_bytes_of (rows width : ℤ) : ℤ := rows * width

/-- Derived metric `runtime_ms = cost` (the source's coarse proxy). -/
def runtime_ms_of (cost : ℚ) : ℚ := cost

/-- The five node-level advisory rules of extract_metrics, evaluated in
source order; each triggered rule appends one message. -/
def nodeRecommendations (node_type : String) (rows : ℤ) (cost : ℚ)
    (memory_bytes : ℤ) : List NodeAdvice :=
  (if endsWithSuffix node_type "Seq Scan" = true ∧ 100000 < rows then
      [NodeAdvice.fullScan rows]
    else []) ++
  (if containsSub node_type "Parallel" = true then [NodeAdvice.parallelPlan] else []) ++
  (if (node_type = "Hash" ∨ node_type = "Sort") ∧ 10 * 1024 * 1024 < memory_bytes then
      [NodeAdvice.workMem node_type ((memory_bytes : ℚ) / (1024 * 1024))
        (pyIntTrunc ((memory_bytes : ℚ) / (1024 * 1024) * 2))]
    else []) ++
  (if node_type = "Nested Loop" ∧ 50000 < rows then [NodeAdvice.nestedLoop] else []) ++
  (if 100000 < cost ∧ (node_type = "Seq Scan" ∨ node_type = "Bitmap Heap Scan") then
      [NodeAdvice.partitioning cost]
    else [])

mutual

/-- info_about_query.extract_metrics.  Reading a missing numeric field
defaults to 0 (`plan.get(k, 0)`); a missing "Node Type" makes the Python code
call `None.endswith`, raising AttributeError, modelled as the error case.
The recursion on the children re-applies the parameter defaults exactly as
the source's `extract_metrics(p)` call does. -/
def extract_metrics (seq_page_cost cpu_tuple_cost : ℚ) :
    PlanNode → Except String AnnotatedNode
  | .mk nodeTypeOpt totalCost planRows planWidth startupCost _ _ _ _ plans =>
    let cost := totalCost.getD 0
    let rows := planRows.getD 0
    let width := planWidth.getD 0
    let startup_cost := startupCost.getD 0
    let cpu_cost := cpu_cost_of rows cpu_tuple_cost
    let io_cost := io_cost_of cost cpu_cost
    let memory_bytes := memory_bytes_of rows width
    let runtime_ms := runtime_ms_of cost
    match nodeTypeOpt with
    | none => .error "AttributeError: NoneType object has no attribute endswith"
    | some node_type =>
      let recommendations := nodeRecommendations node_type rows cost memory_bytes
      match extract_children plans with
      | .error e => .error e
      | .ok children =>
        .ok (.mk node_type cost (pyRound cpu_cost 2) (pyRound io_cost 2)
          (pyRound runtime_ms 2) rows width startup_cost
          (pyRound ((memory_bytes : ℚ) / (1024 * 1024)) 2) recommendations children)

/-- The list comprehension `[extract_metrics(p) for p in plan.get("Plans", [])]`:
children processed left to right, the first exception propagating. -/
def extract_children : List PlanNode → Except String (List AnnotatedNode)
  | [] => .ok []
  | p :: ps =>
    match extract_metrics default_seq_page_cost default_cpu_tuple_cost p with
    | .error e => .error e
    | .ok a =>
      match extract_children ps with
      | .error e => .error e
      | .ok as => .ok (a :: as)

end

/-! ### Tree shapes and well-formedness -/

inductive Shape : Type where
  | node : List Shape → Shape

mutual

def planShape : PlanNode → Shape
  | .mk _ _ _ _ _ _ _ _ _ plans => .node (planShapeList plans)

def planShapeList : List PlanNode → List Shape
  | [] => []
  | p :: ps => planShape p :: planShapeList ps

end

mutual

def annShape : AnnotatedNode → Shape
  | .mk _ _ _ _ _ _ _ _ _ _ cs => .node (annShapeList cs)

def annShapeList : List AnnotatedNode → List Shape
  | [] => []
  | a :: as => annShape a :: annShapeList as

end

mutual

/-- A tree is well formed when every node carries the "Node Type" key, the
one field §3 of the specification lists as unconditional for a PlanNode. -/
def wellFormed : PlanNode → Bool
  | .mk nt _ _ _ _ _ _ _ _ plans => nt.isSome && wellFormedList plans

def wellFormedList : List PlanNode → Bool
  | [] => true
  | p :: ps => wellFormed p && wellFormedList ps

end

mutual

def psize : PlanNode → ℕ
  | .mk _ _ _ _ _ _ _ _ _ plans => 1 + psizeList plans

def psizeList : List PlanNode → ℕ
  | [] => 0
  | p :: ps => psize p + psizeList ps

end

/-! ### The Index Advisor (rec_query.recommend_indexes)

The catalog accessor is the external collaborator: `fetchIndexes` models
get_existing_indexes (the `(indexname, indexdef)` rows of pg_indexes for one
table) and `fetchUnused` models get_unused_indexes at its default size
threshold.  Either call can raise, hence the Except-valued results. -/

/-- One `(indexname, indexdef)` row of get_existing_indexes. -/
structure IndexDescr : Type where
  indexname : String
  indexdef : String
deriving DecidableEq

/-- One row of get_unused_indexes:
`(schemaname, table_name, index_name, index_size, idx_scan)`. -/
structure UnusedIndex : Type where
  schemaname : String
  tableName : String
  indexName : String
  indexSize : String
  idxScan : ℤ
deriving DecidableEq

structure Catalog : Type where
  fetchIndexes : String → Except String (List IndexDescr)
  fetchUnused : Except String (List UnusedIndex)

inductive Priority : Type where
  | low | medium | high
deriving DecidableEq

inductive RecKind : Type where
  | add_index | drop_index
deriving DecidableEq

/-- Tags of the advisor's recommendation dictionaries, carrying exactly the
values interpolated into each message.  `dropIndex` keeps the tuple
components in the order the source's unpacking assigns them (the source
swaps `idx_scan` and `index_size` when unpacking, so the value shown as the
size is the idx_scan count). -/
inductive IdxRec : Type where
  | seqScanFilter (relation : String) (filter_cond : String) (cols : List String)
  | seqScanNoFilter (relation : String)
  | nestedLoopJoin (join_cond : String) (cols : List String)
  | sortIndex (relation : String) (sort_key : List String)
  | dropIndex (schema table index : String) (sizeShown : ℤ)
deriving DecidableEq

/-- The "priority" field of each recommendation dictionary. -/
def IdxRec.priority : IdxRec → Priority
  | .seqScanFilter _ _ _ => .high
  | .seqScanNoFilter _ => .medium
  | .nestedLoopJoin _ _ => .medium
  | .sortIndex _ _ => .low
  | .dropIndex _ _ _ _ => .low

/-- The "type" field of each recommendation dictionary (the no-filter
partitioning suggestion is tagged "add_index" in the source). -/
def IdxRec.rkind : IdxRec → RecKind
  | .dropIndex _ _ _ _ => .drop_index
  | _ => .add_index

/-- Python truthiness of an optional string (None and "" are falsy). -/
def optStrTruthy : Option String → Bool
  | none => false
  | some s => s != ""

/-- Python truthiness of an optional list (None and [] are falsy). -/
def optListTruthy : Option (List String) → Bool
  | none => false
  | some l => !l.isEmpty

/-- Lookup in the walk's `seen_tables` dictionary, modelled as an
insertion-ordered association list. -/
def lookupSeen : List (String × List IndexDescr) → String → Option (List IndexDescr)
  | [], _ => none
  | (k, v) :: rest, r => if k = r then some v else lookupSeen rest r

/-- The mutable state of one recommend_indexes run: the accumulated
recommendation list, the seen_tables memo, and (for the specification's
fetch-once property) the ordered log of tables whose indexes were fetched. -/
structure WalkState : Type where
  recs : List IdxRec
  seen : List (String × List IndexDescr)
  fetchLog : List String
deriving DecidableEq

/-- The three per-node recommendation rules in walk's body, evaluated against
the memo after the fetch step.  Mirrors source order: Seq Scan rule, Nested
Loop rule, Sort Key rule. -/
def nodeIdxRecs (node_type : String) (relationOpt filterOpt joinOpt : Option String)
    (sortKeyOpt : Option (List String)) (seen : List (String × List IndexDescr)) :
    List IdxRec :=
  (if node_type = "Seq Scan" ∧ optStrTruthy relationOpt = true then
      let rel := relationOpt.getD ""
      if optStrTruthy filterOpt = true then
        let fc := filterOpt.getD ""
        let cols := extract_columns_from_filter fc
        if cols ≠ [] then
          let existing := (lookupSeen seen rel).getD []
          if ¬ (existing.any fun idx => cols.all fun col => containsSub idx.indexdef col) = true
          then [IdxRec.seqScanFilter rel fc cols]
          else []
        else []
      else [IdxRec.seqScanNoFilter rel]
    else []) ++
  (if node_type = "Nested Loop" ∧ optStrTruthy joinOpt = true then
      let jc := joinOpt.getD ""
      let cols := extract_columns_from_filter jc
      if cols ≠ [] then [IdxRec.nestedLoopJoin jc cols] else []
    else []) ++
  (if optListTruthy sortKeyOpt = true ∧ optStrTruthy relationOpt = true then
      let rel := relationOpt.getD ""
      let sk := sortKeyOpt.getD []
      let key := String.intercalate ", " sk
      let existing := (lookupSeen seen rel).getD []
      if ¬ (existing.any fun idx => containsSub idx.indexdef key) = true then
        [IdxRec.sortIndex rel sk]
      else []
    else [])

mutual

/-- rec_query.recommend_indexes.walk.  Per node: fetch-once memoization of
the table's existing indexes (a failed fetch raises and propagates), then the
three recommendation rules, then the children depth-first. -/
def walk (cat : Catalog) : PlanNode → WalkState → Except String WalkState
  | .mk nodeTypeOpt _ _ _ _ relationOpt filterOpt joinOpt sortKeyOpt plans, st =>
    let node_type := nodeTypeOpt.getD ""
    let fetched : Except String WalkState :=
      if optStrTruthy relationOpt = true ∧ lookupSeen st.seen (relationOpt.getD "") = none
      then
        match cat.fetchIndexes (relationOpt.getD "") with
        | .error e => .error e
        | .ok idxs =>
          .ok ⟨st.recs, st.seen ++ [(relationOpt.getD "", idxs)],
            st.fetchLog ++ [relationOpt.getD ""]⟩
      else .ok st
    match fetched with
    | .error e => .error e
    | .ok st1 =>
      walkChildren cat plans
        ⟨st1.recs ++ nodeIdxRecs node_type relationOpt filterOpt joinOpt sortKeyOpt st1.seen,
         st1.seen, st1.fetchLog⟩

def walkChildren (cat : Catalog) : List PlanNode → WalkState → Except String WalkState
  | [], st => .ok st
  | p :: ps, st =>
    match walk cat p st with
    | .error e => .error e
    | .ok st1 => walkChildren cat ps st1

end

/-- Consistency of the advisor's per-run state with the catalog: the fetch
log lists exactly the memoized tables in order, no table was fetched twice,
and every memoized index set is the one the catalog returns for its table. -/
def seenInv (cat : Catalog) (st : WalkState) : Prop :=
  st.fetchLog = st.seen.map Prod.fst ∧ st.fetchLog.Nodup ∧
    ∀ e ∈ st.seen, cat.fetchIndexes e.1 = Except.ok e.2

/-- rec_query.recommend_indexes: walk the plan from an empty per-run state,
then append one drop-index recommendation per unused index.  A failure of
either catalog call propagates (there is no handler in the source). -/
def recommend_indexes (cat : Catalog) (plan : PlanNode) : Except String (List IdxRec) :=
  match walk cat plan ⟨[], [], []⟩ with
  | .error e => .error e
  | .ok st =>
    match cat.fetchUnused with
    | .error e => .error e
    | .ok unused =>
      .ok (st.recs ++ unused.map fun u =>
        IdxRec.dropIndex u.schemaname u.tableName u.indexName u.idxScan)

/-! ### The N+1 detector (rec_query.detect_n_plus_one) -/

/-- Default thresholds of detect_n_plus_one (and of the identical
classification in info_about_query.full_pg_analysis). -/
def default_calls_threshold : ℤ := 1000

def default_max_mean_time_ms : ℚ := 10

def default_max_rows : ℤ := 10

/-- One `(query, calls, mean_exec_time, rows)` row of pg_stat_statements as
consumed by detect_n_plus_one. -/
structure StatRow : Type where
  query : String
  calls : ℤ
  mean_exec_time : ℚ
  rows : ℤ
deriving DecidableEq

/-- One entry of the suspect list built by detect_n_plus_one. -/
structure NPlusOneSuspect : Type where
  query : String
  calls : ℤ
  mean_exec_time_ms : ℚ
  rows_per_call : ℤ
deriving DecidableEq

/-- The classification guard
`calls > calls_threshold and mean_time < max_mean_time_ms and rows_count <= max_rows`. -/
def isNPlusOneSuspect (calls_threshold : ℤ) (max_mean_time_ms : ℚ) (max_rows : ℤ)
    (r : StatRow) : Bool :=
  decide (calls_threshold < r.calls) && decide (r.mean_exec_time < max_mean_time_ms) &&
    decide (r.rows ≤ max_rows)

/-- Python's `s.strip()` (ASCII whitespace suffices for the queries here). -/
def pyStrip (s : String) : String :=
  String.mk (((s.toList.dropWhile isPySpace).reverse.dropWhile isPySpace).reverse)

/-- The suspect record appended for a flagged row. -/
def mkSuspect (r : StatRow) : NPlusOneSuspect :=
  ⟨pyStrip r.query, r.calls, pyRound r.mean_exec_time 2, r.rows⟩

/-- rec_query.detect_n_plus_one, as a function of the statistics rows the
catalog query returned (ordering and limiting of that feed are the external
collaborator's business). -/
def detect_n_plus_one (calls_threshold : ℤ) (max_mean_time_ms : ℚ) (max_rows : ℤ) :
    List StatRow → List NPlusOneSuspect
  | [] => []
  | r :: rs =>
    if isNPlusOneSuspect calls_threshold max_mean_time_ms max_rows r then
      mkSuspect r :: detect_n_plus_one calls_threshold max_mean_time_ms max_rows rs
    else detect_n_plus_one calls_threshold max_mean_time_ms max_rows rs

instance {ε α : Type} [DecidableEq ε] [DecidableEq α] : DecidableEq (Except ε α) :=
  fun a b =>
    match a, b with
    | .error e, .error f => decidable_of_iff (e = f) (by simp)
    | .ok x, .ok y => decidable_of_iff (x = y) (by simp)
    | .error _, .ok _ => isFalse (by simp)
    | .ok _, .error _ => isFalse (by simp)

/-! ### Concrete instances used by counterexamples and witnesses -/

/-- A full scan of table t filtered on a truthy predicate from which the
regex extracts no candidate column. -/
def planNoCols : PlanNode :=
  .mk (some "Seq Scan") none none none none (some "t") (some "true") none none []

/-- A full scan of table t filtered on `a = 1`. -/
def planFilterA : PlanNode :=
  .mk (some "Seq Scan") none none none none (some "t") (some "a = 1") none none []

/-- A full scan of table t filtered on `a = 5 AND b = 3`. -/
def planFilterAB : PlanNode :=
  .mk (some "Seq Scan") none none none none (some "t") (some "a = 5 AND b = 3") none none []

/-- A catalog with no indexes at all and a healthy unused-index sweep. -/
def emptyCatalog : Catalog := ⟨fun _ => .ok [], .ok []⟩

/-- A catalog where t has one index whose definition text covers only
column a. -/
def catalogCoverA : Catalog :=
  ⟨fun _ => .ok [⟨"idx_t_a", "CREATE INDEX idx_t_a ON t (a)"⟩], .ok []⟩

/-- A catalog where t has one index whose definition text contains both
filter columns. -/
def catalogCoverAB : Catalog :=
  ⟨fun _ => .ok [⟨"idx_t_a_b", "CREATE INDEX idx_t_a_b ON t (a, b)"⟩], .ok []⟩

/-- A catalog whose unused-index sweep fails. -/
def catalogUnusedDown : Catalog := ⟨fun _ => .ok [], .error "catalog unavailable"⟩

/-- A two-node plan, parent and child both scanning table t. -/
def planSameTableTwice : PlanNode :=
  .mk (some "Seq Scan") none none none none (some "t") none none none
    [.mk (some "Seq Scan") none none none none (some "t") none none none []]

/-- A well-formed two-level plan used by witnesses. -/
def planTwoLevel : PlanNode :=
  .mk (some "Hash Join") (some 7) (some 2) (some 1) none none none none none
    [.mk (some "Seq Scan") (some 3) (some 1) (some 1) none none none none none [],
     .mk (some "Seq Scan") (some 4) (some 1) (some 1) none none none none none []]

/-! ## Helper lemmas -/

theorem psize_pos (p : PlanNode) : 0 < psize p := by
  obtain ⟨_, _, _, _, _, _, _, _, _, plans⟩ := p
  simp [psize]

/-- On a well-formed tree the extractor succeeds, and the output mirrors the
input shape.  Strong induction on the tree size. -/
theorem extract_ok_of_wf :
    ∀ (n : ℕ) (p : PlanNode), psize p ≤ n → wellFormed p = true →
      ∀ s c : ℚ, ∃ a, extract_metrics s c p = Except.ok a ∧ annShape a = planShape p := by
  intro n
  induction n with
  | zero =>
    intro p hs _
    exact absurd hs (by have := psize_pos p; omega)
  | succ n ih =>
    intro p hs hwf s c
    obtain ⟨nt, tc, pr, pw, sc0, rel, f, j, sk, plans⟩ := p
    have hwf' : nt.isSome = true ∧ wellFormedList plans = true := by
      simpa [wellFormed, Bool.and_eq_true] using hwf
    obtain ⟨t, ht⟩ := Option.isSome_iff_exists.mp hwf'.1
    subst ht
    have hsz : psizeList plans ≤ n := by
      have h1 : 1 + psizeList plans ≤ n + 1 := by simpa [psize] using hs
      omega
    have hch : ∀ (l : List PlanNode), psizeList l ≤ n → wellFormedList l = true →
        ∃ as, extract_children l = Except.ok as ∧ annShapeList as = planShapeList l := by
      intro l
      induction l with
      | nil =>
        intro _ _
        exact ⟨[], by simp [extract_children], by simp [annShapeList, planShapeList]⟩
      | cons q qs ihq =>
        intro hle hw
        have hw' : wellFormed q = true ∧ wellFormedList qs = true := by
          simpa [wellFormedList, Bool.and_eq_true] using hw
        have hle' : psize q + psizeList qs ≤ n := by simpa [psizeList] using hle
        obtain ⟨a, ha, hsha⟩ :=
          ih q (by omega) hw'.1 default_seq_page_cost default_cpu_tuple_cost
        obtain ⟨as, has, hshas⟩ := ihq (by omega) hw'.2
        refine ⟨a :: as, ?_, ?_⟩
        · simp [extract_children, ha, has]
        · simp [annShapeList, planShapeList, hsha, hshas]
    obtain ⟨as, has, hsh⟩ := hch plans hsz hwf'.2
    refine ⟨AnnotatedNode.mk t (tc.getD 0)
        (pyRound (cpu_cost_of (pr.getD 0) c) 2)
        (pyRound (io_cost_of (tc.getD 0) (cpu_cost_of (pr.getD 0) c)) 2)
        (pyRound (runtime_ms_of (tc.getD 0)) 2)
        (pr.getD 0) (pw.getD 0) (sc0.getD 0)
        (pyRound ((memory_bytes_of (pr.getD 0) (pw.getD 0) : ℚ) / (1024 * 1024)) 2)
        (nodeRecommendations t (pr.getD 0) (tc.getD 0)
          (memory_bytes_of (pr.getD 0) (pw.getD 0)))
        as, ?_, ?_⟩
    · simp [extract_metrics, has]
    · simp [annShape, planShape, hsh]

theorem lookupSeen_eq_none (l : List (String × List IndexDescr)) (r : String) :
    lookupSeen l r = none ↔ r ∉ l.map Prod.fst := by
  induction l with
  | nil => simp [lookupSeen]
  | cons e rest ihl =>
    obtain ⟨k, v⟩ := e
    by_cases h : k = r
    · subst h
      simp [lookupSeen]
    · simp only [lookupSeen, if_neg h, ihl, List.map_cons, List.mem_cons]
      constructor
      · rintro hn (hk | hm)
        · exact h hk.symm
        · exact hn hm
      · intro hn hm
        exact hn (Or.inr hm)

/-- The walk preserves catalog consistency of the per-run state: in
particular no table is ever fetched a second time.  Strong induction on the
tree size. -/
theorem walk_preserves_seenInv :
    ∀ (n : ℕ) (cat : Catalog) (p : PlanNode), psize p ≤ n →
      ∀ st st', seenInv cat st → walk cat p st = Except.ok st' → seenInv cat st' := by
  intro n
  induction n with
  | zero =>
    intro cat p hs
    exact absurd hs (by have := psize_pos p; omega)
  | succ n ih =>
    intro cat p hs st st' hinv hw
    obtain ⟨nt, tc, pr, pw, sc0, rel, f, j, sk, plans⟩ := p
    have hsz : psizeList plans ≤ n := by
      have h1 : 1 + psizeList plans ≤ n + 1 := by simpa [psize] using hs
      omega
    have hch : ∀ (l : List PlanNode), psizeList l ≤ n →
        ∀ st1 st2, seenInv cat st1 → walkChildren cat l st1 = Except.ok st2 →
          seenInv cat st2 := by
      intro l
      induction l with
      | nil =>
        intro _ st1 st2 h1 h2
        simp only [walkChildren, Except.ok.injEq] at h2
        subst h2
        exact h1
      | cons q qs ihq =>
        intro hle st1 st2 h1 h2
        have hle' : psize q + psizeList qs ≤ n := by simpa [psizeList] using hle
        simp only [walkChildren] at h2
        cases hwq : walk cat q st1 with
        | error e =>
          rw [hwq] at h2
          exact absurd h2 (by simp)
        | ok stm =>
          rw [hwq] at h2
          exact ihq (by omega) stm st2 (ih cat q (by omega) st1 stm h1 hwq) h2
    simp only [walk] at hw
    by_cases hc : optStrTruthy rel = true ∧ lookupSeen st.seen (rel.getD "") = none
    · rw [if_pos hc] at hw
      cases hfi : cat.fetchIndexes (rel.getD "") with
      | error e =>
        rw [hfi] at hw
        exact absurd hw (by simp)
      | ok idxs =>
        rw [hfi] at hw
        dsimp only at hw
        have hmem : rel.getD "" ∉ st.fetchLog := by
          have := (lookupSeen_eq_none st.seen (rel.getD "")).mp hc.2
          rw [hinv.1]
          exact this
        have hinv1 : seenInv cat
            ⟨st.recs ++ nodeIdxRecs (nt.getD "") rel f j sk (st.seen ++ [(rel.getD "", idxs)]),
             st.seen ++ [(rel.getD "", idxs)], st.fetchLog ++ [rel.getD ""]⟩ := by
          refine ⟨?_, ?_, ?_⟩
          · simp [hinv.1]
          · simp only [List.nodup_append, List.nodup_cons, List.nodup_nil]
            refine ⟨hinv.2.1, by simp, ?_⟩
            intro a ha
            simp only [List.mem_singleton]
            intro hEq
            exact hmem (hEq ▸ ha)
          · intro e he
            rcases List.mem_append.mp he with hOld | hNew
            · exact hinv.2.2 e hOld
            · simp only [List.mem_singleton] at hNew
              subst hNew
              exact hfi
        exact hch plans hsz _ st' hinv1 hw
    · rw [if_neg hc] at hw
      dsimp only at hw
      exact hch plans hsz
        ⟨st.recs ++ nodeIdxRecs (nt.getD "") rel f j sk st.seen, st.seen, st.fetchLog⟩
        st' hinv hw

/-- The column scanner on concrete predicate texts, matching what
`re.findall` returns on them. -/
theorem extract_columns_from_filter_examples :
    extract_columns_from_filter "a = 5 AND b = 3" = ["a", "b"] ∧
    extract_columns_from_filter "true" = [] ∧
    extract_columns_from_filter "name LIKE 'x%'" = ["name"] ∧
    extract_columns_from_filter "a >= 5 AND a < 7" = ["a"] := by decide

/-! ## The claims -/

/-- C1, counterexample: extract_metrics is not total over nodes missing the
node-type tag.  On a node without the "Node Type" key (all other fields
present) the source evaluates `None.endswith(...)` and raises AttributeError
instead of returning an annotated node with zero-valued derived fields. -/
theorem extract_metrics_missing_tag_cx :
    extract_metrics default_seq_page_cost default_cpu_tuple_cost
      (.mk none (some 10) (some 5) (some 4) (some 1) none none none none []) =
    Except.error "AttributeError: NoneType object has no attribute endswith" := rfl

/-- C1, amended: extract_metrics is total over every plan node that carries
the node-type tag; any other missing field defaults to zero, so a node with
only the tag yields all-zero derived metrics; a node missing the tag itself
raises instead of defaulting. -/
theorem extract_metrics_totality_amended :
    (∀ (s c : ℚ) (p : PlanNode), wellFormed p = true →
      ∃ a, extract_metrics s c p = Except.ok a) ∧
    ∀ nt : String,
      extract_metrics default_seq_page_cost default_cpu_tuple_cost
        (.mk (some nt) none none none none none none none none []) =
      Except.ok (.mk nt 0 0 0 0 0 0 0 0 (nodeRecommendations nt 0 0 0) []) := by
  constructor
  · intro s c p h
    obtain ⟨a, ha, -⟩ := extract_ok_of_wf (psize p) p le_rfl h s c
    exact ⟨a, ha⟩
  · intro nt
    simp only [extract_metrics, extract_children, cpu_cost_of, io_cost_of, memory_bytes_of,
      runtime_ms_of, Option.getD, Except.ok.injEq]
    norm_num [pyRound, roundHalfEven]

/-- Witness for C1: the amended totality applied to a concrete well-formed
node. -/
theorem extract_metrics_totality_amended_witness :
    ∃ a, extract_metrics 1 (1 / 100)
      (.mk (some "Seq Scan") (some 5) (some 3) (some 2) (some 1) none none none none []) =
      Except.ok a :=
  extract_metrics_totality_amended.1 1 (1 / 100) _ (by decide)

/-- C2: on every plan-node tree (each node carrying the node-type tag, the
field §3 of the specification makes unconditional for a PlanNode), the
extractor returns an annotated tree of identical shape, one output node per
input node with children mirrored in order. -/
theorem extract_metrics_shape_iso (s c : ℚ) (p : PlanNode) (h : wellFormed p = true) :
    ∃ a, extract_metrics s c p = Except.ok a ∧ annShape a = planShape p :=
  extract_ok_of_wf (psize p) p le_rfl h s c

/-- Witness for C2: the shape isomorphism applied to a concrete three-node
tree. -/
theorem extract_metrics_shape_iso_witness :
    ∃ a, extract_metrics 1 (1 / 100) planTwoLevel = Except.ok a ∧
      annShape a = planShape planTwoLevel :=
  extract_metrics_shape_iso 1 (1 / 100) planTwoLevel (by decide)

/-- C4: the derived metrics satisfy cpu_cost = rows * cpu_tuple_cost with the
default cpu_tuple_cost of 1/100, io_cost = max(total_cost - cpu_cost, 0),
memory_bytes = rows * width and total_time_estimate = total_cost; io_cost is
nonnegative for every input, including the io_ms field of every annotated
node the extractor returns. -/
theorem extract_metrics_derived_metrics :
    (∀ (rows width : ℤ) (cost : ℚ),
      cpu_cost_of rows default_cpu_tuple_cost = (rows : ℚ) * (1 / 100) ∧
      io_cost_of cost (cpu_cost_of rows default_cpu_tuple_cost) =
        max (cost - (rows : ℚ) * (1 / 100)) 0 ∧
      memory_bytes_of rows width = rows * width ∧
      runtime_ms_of cost = cost ∧
      0 ≤ io_cost_of cost (cpu_cost_of rows default_cpu_tuple_cost)) ∧
    ∀ (s c : ℚ) (p : PlanNode) (a : AnnotatedNode),
      extract_metrics s c p = Except.ok a → 0 ≤ a.io_ms := by
  constructor
  · intro rows width cost
    exact ⟨rfl, rfl, rfl, rfl, le_max_right _ _⟩
  · intro s c p a h
    obtain ⟨nt, tc, pr, pw, sc0, rel, f, j, sk, plans⟩ := p
    cases nt with
    | none => simp [extract_metrics] at h
    | some t =>
      cases hch : extract_children plans with
      | error e => simp [extract_metrics, hch] at h
      | ok as =>
        simp only [extract_metrics, hch, Except.ok.injEq] at h
        subst h
        exact pyRound_nonneg 2 (le_max_right _ _)

/-- Witness for C4: the nonnegativity of the output io_ms field applied to a
concrete node. -/
theorem extract_metrics_derived_metrics_witness :
    extract_metrics 1 (1 / 100)
        (.mk (some "X") none none none none none none none none []) =
      Except.ok (.mk "X" 0 0 0 0 0 0 0 0 [] []) ∧
    (0 : ℚ) ≤ (AnnotatedNode.mk "X" 0 0 0 0 0 0 0 0 [] []).io_ms := by
  have h : extract_metrics 1 (1 / 100)
      (.mk (some "X") none none none none none none none none []) =
      Except.ok (.mk "X" 0 0 0 0 0 0 0 0 [] []) := by
    simp [extract_metrics, extract_children, nodeRecommendations, cpu_cost_of, io_cost_of,
      memory_bytes_of, runtime_ms_of, pyRound, roundHalfEven]
    decide
  exact ⟨h, extract_metrics_derived_metrics.2 1 (1 / 100) _ _ h⟩

/-- C7: a full-scan node with 150000 rows that satisfies no other heuristic's
trigger condition yields exactly one recommendation, the full-scan warning. -/
theorem extract_metrics_full_scan_single :
    ∀ (s c cost : ℚ) (w sc : ℤ) (nt : String),
      endsWithSuffix nt "Seq Scan" = true →
      ¬ containsSub nt "Parallel" = true →
      ¬ ((nt = "Hash" ∨ nt = "Sort") ∧ 10 * 1024 * 1024 < memory_bytes_of 150000 w) →
      ¬ (nt = "Nested Loop" ∧ (50000 : ℤ) < 150000) →
      ¬ (100000 < cost ∧ (nt = "Seq Scan" ∨ nt = "Bitmap Heap Scan")) →
      ∃ a, extract_metrics s c
          (.mk (some nt) (some cost) (some 150000) (some w) (some sc) none none none none []) =
        Except.ok a ∧ a.recommendations = [NodeAdvice.fullScan 150000] := by
  intro s c cost w sc nt h1 h2 h3 h4 h5
  have hrec : nodeRecommendations nt 150000 cost (memory_bytes_of 150000 w) =
      [NodeAdvice.fullScan 150000] := by
    unfold nodeRecommendations
    rw [if_pos ⟨h1, by norm_num⟩, if_neg h2, if_neg h3, if_neg h4, if_neg h5]
    simp
  have hx : extract_metrics s c
      (.mk (some nt) (some cost) (some 150000) (some w) (some sc) none none none none []) =
      Except.ok (.mk nt cost (pyRound (cpu_cost_of 150000 c) 2)
        (pyRound (io_cost_of cost (cpu_cost_of 150000 c)) 2)
        (pyRound (runtime_ms_of cost) 2) 150000 w sc
        (pyRound ((memory_bytes_of 150000 w : ℚ) / (1024 * 1024)) 2)
        (nodeRecommendations nt 150000 cost (memory_bytes_of 150000 w)) []) := by
    simp [extract_metrics, extract_children]
  exact ⟨_, hx, by simp [AnnotatedNode.recommendations, hrec]⟩

/-- Witness for C7: a plain Seq Scan of 150000 rows with low cost gets
exactly the full-scan warning. -/
theorem extract_metrics_full_scan_single_witness :
    ∃ a, extract_metrics 1 (1 / 100)
        (.mk (some "Seq Scan") (some 50) (some 150000) (some 4) (some 0)
          none none none none []) =
      Except.ok a ∧ a.recommendations = [NodeAdvice.fullScan 150000] :=
  extract_metrics_full_scan_single 1 (1 / 100) 50 4 0 "Seq Scan" (by decide) (by decide)
    (by decide) (by decide) (by norm_num)

/-- C8: every Hash or Sort node whose memory estimate exceeds 10 MiB gets the
working-memory recommendation suggesting twice the estimated megabytes; in
particular a Hash node with 2000000 rows of width 10 (about 19 MB) gets it
with a suggested budget of 38 MB. -/
theorem extract_metrics_work_mem :
    (∀ (s c cost : ℚ) (rows w sc : ℤ) (nt : String),
      (nt = "Hash" ∨ nt = "Sort") →
      10 * 1024 * 1024 < memory_bytes_of rows w →
      ∃ a, extract_metrics s c
          (.mk (some nt) (some cost) (some rows) (some w) (some sc) none none none none []) =
        Except.ok a ∧
        NodeAdvice.workMem nt ((memory_bytes_of rows w : ℚ) / (1024 * 1024))
            (pyIntTrunc ((memory_bytes_of rows w : ℚ) / (1024 * 1024) * 2)) ∈
          a.recommendations) ∧
    ∃ a, extract_metrics default_seq_page_cost default_cpu_tuple_cost
        (.mk (some "Hash") (some 0) (some 2000000) (some 10) (some 0) none none none none []) =
      Except.ok a ∧
      a.recommendations = [NodeAdvice.workMem "Hash" (20000000 / 1048576) 38] := by
  constructor
  · intro s c cost rows w sc nt hnt hmem
    have hrec : nodeRecommendations nt rows cost (memory_bytes_of rows w) =
        [NodeAdvice.workMem nt ((memory_bytes_of rows w : ℚ) / (1024 * 1024))
          (pyIntTrunc ((memory_bytes_of rows w : ℚ) / (1024 * 1024) * 2))] := by
      unfold nodeRecommendations
      rcases hnt with h | h <;> subst h <;>
        rw [if_neg (by rintro ⟨hq, -⟩; exact absurd hq (by decide)),
          if_neg (by intro hq; exact absurd hq (by decide)),
          if_pos ⟨by simp, hmem⟩,
          if_neg (by rintro ⟨hq, -⟩; exact absurd hq (by decide)),
          if_neg (by rintro ⟨-, hq | hq⟩ <;> exact absurd hq (by decide))] <;>
        simp
    have hx : extract_metrics s c
        (.mk (some nt) (some cost) (some rows) (some w) (some sc) none none none none []) =
        Except.ok (.mk nt cost (pyRound (cpu_cost_of rows c) 2)
          (pyRound (io_cost_of cost (cpu_cost_of rows c)) 2)
          (pyRound (runtime_ms_of cost) 2) rows w sc
          (pyRound ((memory_bytes_of rows w : ℚ) / (1024 * 1024)) 2)
          (nodeRecommendations nt rows cost (memory_bytes_of rows w)) []) := by
      simp [extract_metrics, extract_children]
    exact ⟨_, hx, by simp [AnnotatedNode.recommendations, hrec]⟩
  · have hmb : (memory_bytes_of 2000000 10 : ℚ) / (1024 * 1024) = 20000000 / 1048576 := by
      norm_num [memory_bytes_of]
    have htr : pyIntTrunc ((20000000 : ℚ) / 1048576 * 2) = 38 := by
      have h2 : ((20000000 : ℚ) / 1048576 * 2) = 78125 / 2048 := by norm_num
      rw [pyIntTrunc, if_pos (by norm_num), h2]
      rw [Int.floor_eq_iff]
      norm_num
    have hrec : nodeRecommendations "Hash" 2000000 0 (memory_bytes_of 2000000 10) =
        [NodeAdvice.workMem "Hash" (20000000 / 1048576) 38] := by
      unfold nodeRecommendations
      rw [if_neg (by rintro ⟨hq, -⟩; exact absurd hq (by decide)),
        if_neg (by intro hq; exact absurd hq (by decide)),
        if_pos ⟨Or.inl rfl, by norm_num [memory_bytes_of]⟩,
        if_neg (by rintro ⟨hq, -⟩; exact absurd hq (by decide)),
        if_neg (by rintro ⟨hq, -⟩; exact absurd hq (by norm_num))]
      simp [hmb, htr]
    have hx : extract_metrics default_seq_page_cost default_cpu_tuple_cost
        (.mk (some "Hash") (some 0) (some 2000000) (some 10) (some 0) none none none none []) =
        Except.ok (.mk "Hash" 0 (pyRound (cpu_cost_of 2000000 default_cpu_tuple_cost) 2)
          (pyRound (io_cost_of 0 (cpu_cost_of 2000000 default_cpu_tuple_cost)) 2)
          (pyRound (runtime_ms_of 0) 2) 2000000 10 0
          (pyRound ((memory_bytes_of 2000000 10 : ℚ) / (1024 * 1024)) 2)
          (nodeRecommendations "Hash" 2000000 0 (memory_bytes_of 2000000 10)) []) := by
      simp [extract_metrics, extract_children]
    exact ⟨_, hx, by simp [AnnotatedNode.recommendations, hrec]⟩

/-- Witness for C8: the working-memory rule applied to a concrete Sort node
of 3000000 rows of width 8 (about 22.9 MB). -/
theorem extract_metrics_work_mem_witness :
    ∃ a, extract_metrics 1 (1 / 100)
        (.mk (some "Sort") (some 5) (some 3000000) (some 8) (some 0) none none none none []) =
      Except.ok a ∧
      NodeAdvice.workMem "Sort" ((memory_bytes_of 3000000 8 : ℚ) / (1024 * 1024))
          (pyIntTrunc ((memory_bytes_of 3000000 8 : ℚ) / (1024 * 1024) * 2)) ∈
        a.recommendations :=
  extract_metrics_work_mem.1 1 (1 / 100) 5 3000000 8 0 "Sort" (Or.inr rfl)
    (by norm_num [memory_bytes_of])

/-- C9: under the default thresholds a statistics row is flagged as an N+1
suspect exactly when its call count exceeds 1000, its mean time is strictly
below 10 ms and its row count is at most 10; a row with calls 5000, mean
2 ms, rows 1 is flagged, and a row with calls 5000, mean 200 ms is not. -/
theorem detect_n_plus_one_classification :
    (∀ rs : List StatRow,
      detect_n_plus_one default_calls_threshold default_max_mean_time_ms default_max_rows rs =
        (rs.filter (isNPlusOneSuspect default_calls_threshold default_max_mean_time_ms
          default_max_rows)).map mkSuspect) ∧
    (∀ r : StatRow,
      isNPlusOneSuspect default_calls_threshold default_max_mean_time_ms default_max_rows r =
        true ↔ 1000 < r.calls ∧ r.mean_exec_time < 10 ∧ r.rows ≤ 10) ∧
    (∀ q : String,
      isNPlusOneSuspect default_calls_threshold default_max_mean_time_ms default_max_rows
        ⟨q, 5000, 2, 1⟩ = true) ∧
    (∀ (q : String) (r0 : ℤ),
      isNPlusOneSuspect default_calls_threshold default_max_mean_time_ms default_max_rows
        ⟨q, 5000, 200, r0⟩ = false) ∧
    ∀ q : String,
      detect_n_plus_one default_calls_threshold default_max_mean_time_ms default_max_rows
        [⟨q, 5000, 2, 1⟩, ⟨q, 5000, 200, 1⟩] = [mkSuspect ⟨q, 5000, 2, 1⟩] := by
  refine ⟨?_, ?_, ?_, ?_, ?_⟩
  · intro rs
    induction rs with
    | nil => simp [detect_n_plus_one]
    | cons r rest ihr =>
      by_cases h : isNPlusOneSuspect default_calls_threshold default_max_mean_time_ms
          default_max_rows r = true
      · simp [detect_n_plus_one, List.filter_cons, h, ihr]
      · simp [detect_n_plus_one, List.filter_cons, h, ihr]
  · intro r
    simp [isNPlusOneSuspect, default_calls_threshold, default_max_mean_time_ms,
      default_max_rows, and_assoc]
  · intro q
    simp [isNPlusOneSuspect, default_calls_threshold, default_max_mean_time_ms,
      default_max_rows]
    norm_num
  · intro q r0
    simp [isNPlusOneSuspect, default_calls_threshold, default_max_mean_time_ms,
      default_max_rows]
    norm_num
  · intro q
    simp [detect_n_plus_one, isNPlusOneSuspect, default_calls_threshold,
      default_max_mean_time_ms, default_max_rows]
    norm_num

/-- C10: a sequential-scan node with no relation name produces no
recommendation in the Index Advisor walk, whatever filter, join filter or
sort key it carries — the walk returns its state unchanged. -/
theorem walk_seq_scan_no_relation :
    ∀ (cat : Catalog) (st : WalkState) (tc sc : Option ℚ) (pr pw : Option ℤ)
      (fo jo : Option String) (sk : Option (List String)),
      walk cat (.mk (some "Seq Scan") tc pr pw sc none fo jo sk []) st = Except.ok st := by
  intro cat st tc sc pr pw fo jo sk
  simp [walk, walkChildren, nodeIdxRecs, optStrTruthy, optListTruthy,
    show ("Seq Scan" : String) ≠ "Nested Loop" from by decide]

/-- C5: within one Index Advisor run the existing-index set of a table is
fetched at most once (the fetch log has no duplicates), the log records
exactly the memoized tables, and every memoized set is the one the catalog
returned for that table — the single fetched set every node reuses. -/
theorem recommend_indexes_fetch_once (cat : Catalog) (p : PlanNode) (st : WalkState)
    (h : walk cat p ⟨[], [], []⟩ = Except.ok st) :
    st.fetchLog.Nodup ∧ st.fetchLog = st.seen.map Prod.fst ∧
      ∀ e ∈ st.seen, cat.fetchIndexes e.1 = Except.ok e.2 := by
  have h0 : seenInv cat ⟨[], [], []⟩ := ⟨rfl, List.nodup_nil, by intro e he; simp at he⟩
  have h1 := walk_preserves_seenInv (psize p) cat p le_rfl ⟨[], [], []⟩ st h0 h
  exact ⟨h1.2.1, h1.1, h1.2.2⟩

/-- Witness for C5: a two-node plan scanning the same table twice fetches its
indexes exactly once. -/
theorem recommend_indexes_fetch_once_witness :
    (["t"] : List String).Nodup ∧
    (["t"] : List String) = ([("t", ([] : List IndexDescr))]).map Prod.fst ∧
    ∀ e ∈ [("t", ([] : List IndexDescr))], emptyCatalog.fetchIndexes e.1 = Except.ok e.2 :=
  recommend_indexes_fetch_once emptyCatalog planSameTableTwice
    ⟨[IdxRec.seqScanNoFilter "t", IdxRec.seqScanNoFilter "t"], [("t", [])], ["t"]⟩ (by decide)

/-- C6, counterexample: with a failing unused-index sweep, the walk over the
plan does produce a recommendation, yet recommend_indexes returns the error
and no recommendation list at all — the failure is not treated as an empty
result set and the run aborts. -/
theorem recommend_indexes_catalog_failure_cx :
    (∃ st, walk catalogUnusedDown planFilterA ⟨[], [], []⟩ = Except.ok st ∧ st.recs ≠ []) ∧
    recommend_indexes catalogUnusedDown planFilterA = Except.error "catalog unavailable" :=
  ⟨⟨⟨[IdxRec.seqScanFilter "t" "a = 1" ["a"]], [("t", [])], ["t"]⟩, by decide, by decide⟩,
    by decide⟩

/-- C6, amended: a failed catalog lookup inside the Index Advisor is not
caught: the exception propagates and the run aborts with the error,
discarding even the recommendations the walk had already produced; a failed
existing-index fetch likewise aborts the walk itself. -/
theorem recommend_indexes_catalog_failure_amended :
    (∀ (cat : Catalog) (p : PlanNode) (e : String) (st : WalkState),
      cat.fetchUnused = Except.error e → walk cat p ⟨[], [], []⟩ = Except.ok st →
      recommend_indexes cat p = Except.error e) ∧
    ∀ (cat : Catalog) (rel e : String) (nto : Option String) (tc sc : Option ℚ)
      (pr pw : Option ℤ) (fo jo : Option String) (sk : Option (List String))
      (plans : List PlanNode),
      rel ≠ "" → cat.fetchIndexes rel = Except.error e →
      walk cat (.mk nto tc pr pw sc (some rel) fo jo sk plans) ⟨[], [], []⟩ =
        Except.error e := by
  constructor
  · intro cat p e st h1 h2
    simp [recommend_indexes, h2, h1]
  · intro cat rel e nto tc sc pr pw fo jo sk plans h1 h2
    have htr : optStrTruthy (some rel) = true := by
      simpa [optStrTruthy, bne_iff_ne] using h1
    simp only [walk, lookupSeen, Option.getD]
    rw [if_pos ⟨htr, trivial⟩, h2]

/-- Witness for C6: the amended propagation applied to a concrete failing
catalog. -/
theorem recommend_indexes_catalog_failure_amended_witness :
    recommend_indexes catalogUnusedDown planFilterA = Except.error "catalog unavailable" :=
  recommend_indexes_catalog_failure_amended.1 catalogUnusedDown planFilterA
    "catalog unavailable" ⟨[IdxRec.seqScanFilter "t" "a = 1" ["a"]], [("t", [])], ["t"]⟩
    rfl (by decide)

/-- C3, counterexample: a full scan of t with the truthy filter predicate
"true", from which the regex extracts no candidate column, emits no
add-index recommendation even though the table has no index at all (so no
existing index's definition text contains all candidate columns) — the
source additionally requires at least one extracted column. -/
theorem recommend_indexes_no_cols_cx :
    optStrTruthy (some "true") = true ∧
    extract_columns_from_filter "true" = [] ∧
    recommend_indexes emptyCatalog planNoCols = Except.ok [] :=
  ⟨by decide, by decide, by decide⟩

/-- C3, amended: for a full-scan node with a relation name and a truthy
filter predicate, the high-priority add-index recommendation naming the
table and the extracted candidate columns is emitted exactly when at least
one candidate column is extracted and no existing index's definition text
contains all of them; with no filter, a medium-priority partitioning
suggestion is emitted instead.  The two illustrative scenarios of the
specification hold as stated. -/
theorem recommend_indexes_seq_scan_amended :
    (∀ (cat : Catalog) (rel fc : String) (idxs : List IndexDescr),
      rel ≠ "" → fc ≠ "" → cat.fetchIndexes rel = Except.ok idxs →
      ∃ st, walk cat
          (.mk (some "Seq Scan") none none none none (some rel) (some fc) none none [])
          ⟨[], [], []⟩ = Except.ok st ∧
        st.recs =
          (if extract_columns_from_filter fc ≠ [] ∧
              (idxs.any fun idx => (extract_columns_from_filter fc).all
                fun col => containsSub idx.indexdef col) = false
            then [IdxRec.seqScanFilter rel fc (extract_columns_from_filter fc)]
            else []) ∧
        (IdxRec.seqScanFilter rel fc (extract_columns_from_filter fc)).priority =
          Priority.high) ∧
    (∀ (cat : Catalog) (rel : String) (idxs : List IndexDescr),
      rel ≠ "" → cat.fetchIndexes rel = Except.ok idxs →
      ∃ st, walk cat
          (.mk (some "Seq Scan") none none none none (some rel) none none none [])
          ⟨[], [], []⟩ = Except.ok st ∧
        st.recs = [IdxRec.seqScanNoFilter rel] ∧
        (IdxRec.seqScanNoFilter rel).priority = Priority.medium) ∧
    (∃ st cols, walk catalogCoverA planFilterAB ⟨[], [], []⟩ = Except.ok st ∧
      IdxRec.seqScanFilter "t" "a = 5 AND b = 3" cols ∈ st.recs ∧
      "a" ∈ cols ∧ "b" ∈ cols) ∧
    ∃ st, walk catalogCoverAB planFilterAB ⟨[], [], []⟩ = Except.ok st ∧ st.recs = [] := by
  refine ⟨?_, ?_, ?_, ?_⟩
  · intro cat rel fc idxs h1 h2 h3
    have htr : optStrTruthy (some rel) = true := by
      simpa [optStrTruthy, bne_iff_ne] using h1
    have hft : optStrTruthy (some fc) = true := by
      simpa [optStrTruthy, bne_iff_ne] using h2
    refine ⟨⟨nodeIdxRecs "Seq Scan" (some rel) (some fc) none none [(rel, idxs)],
        [(rel, idxs)], [rel]⟩, ?_, ?_, rfl⟩
    · simp only [walk, walkChildren, Option.getD]
      rw [if_pos ⟨htr, rfl⟩, h3]
      dsimp only
      simp
    · show nodeIdxRecs "Seq Scan" (some rel) (some fc) none none [(rel, idxs)] = _
      unfold nodeIdxRecs
      rw [if_pos ⟨rfl, htr⟩, if_pos hft,
        if_neg (show ¬ (("Seq Scan" : String) = "Nested Loop" ∧
          optStrTruthy none = true) from by rintro ⟨hq, -⟩; exact absurd hq (by decide)),
        if_neg (show ¬ (optListTruthy none = true ∧
          optStrTruthy (some rel) = true) from by rintro ⟨hq, -⟩; exact absurd hq (by decide))]
      simp only [List.append_nil]
      by_cases hcols : extract_columns_from_filter fc = []
      · simp [hcols]
      · by_cases hany : (idxs.any fun idx => (extract_columns_from_filter fc).all
            fun col => containsSub idx.indexdef col) = true
        · simp [hcols, hany, lookupSeen]
        · simp [hcols, hany, lookupSeen]
  · intro cat rel idxs h1 h3
    have htr : optStrTruthy (some rel) = true := by
      simpa [optStrTruthy, bne_iff_ne] using h1
    refine ⟨⟨nodeIdxRecs "Seq Scan" (some rel) none none none [(rel, idxs)],
        [(rel, idxs)], [rel]⟩, ?_, ?_, rfl⟩
    · simp only [walk, walkChildren, Option.getD]
      rw [if_pos ⟨htr, rfl⟩, h3]
      dsimp only
      simp
    · show nodeIdxRecs "Seq Scan" (some rel) none none none [(rel, idxs)] = _
      unfold nodeIdxRecs
      rw [if_pos ⟨rfl, htr⟩,
        if_neg (show ¬ optStrTruthy none = true from by decide),
        if_neg (show ¬ (("Seq Scan" : String) = "Nested Loop" ∧
          optStrTruthy none = true) from by rintro ⟨hq, -⟩; exact absurd hq (by decide)),
        if_neg (show ¬ (optListTruthy none = true ∧
          optStrTruthy (some rel) = true) from by rintro ⟨hq, -⟩; exact absurd hq (by decide))]
      simp
  · exact ⟨⟨[IdxRec.seqScanFilter "t" "a = 5 AND b = 3" ["a", "b"]],
      [("t", [⟨"idx_t_a", "CREATE INDEX idx_t_a ON t (a)"⟩])], ["t"]⟩, ["a", "b"],
      by decide, by decide, by decide, by decide⟩
  · exact ⟨⟨[], [("t", [⟨"idx_t_a_b", "CREATE INDEX idx_t_a_b ON t (a, b)"⟩])], ["t"]⟩,
      by decide, by decide⟩

/-- Witness for C3: the amended rule applied to a concrete scan of t
filtered on `a = 1` against an empty catalog. -/
theorem recommend_indexes_seq_scan_amended_witness :
    ∃ st, walk emptyCatalog
        (.mk (some "Seq Scan") none none none none (some "t") (some "a = 1") none none [])
        ⟨[], [], []⟩ = Except.ok st ∧
      st.recs =
        (if extract_columns_from_filter "a = 1" ≠ [] ∧
            (([] : List IndexDescr).any fun idx => (extract_columns_from_filter "a = 1").all
              fun col => containsSub idx.indexdef col) = false
          then [IdxRec.seqScanFilter "t" "a = 1" (extract_columns_from_filter "a = 1")]
          else []) ∧
      (IdxRec.seqScanFilter "t" "a = 1" (extract_columns_from_filter "a = 1")).priority =
        Priority.high :=
  recommend_indexes_seq_scan_amended.1 emptyCatalog "t" "a = 1" [] (by decide) (by decide) rfl

end SQLAnalysis
